import Mathlib

/-!
# yaus: a URL shortener

A shallow embedding of the Go packages `internal/short`, `internal/storage`
and `internal/yaus`, followed by the properties proved about them.

Go strings are modelled by `String`; `[]byte(text)` is the UTF-8 encoding of
the text, a list of naturals below 256.  Unsigned 32-bit words are naturals
reduced modulo `2 ^ 32`.
-/

set_option autoImplicit false

/-! ## Go errors -/

/-- Go `error` values that occur in the program: the two sentinel errors the
code compares against or receives, plain `errors.New` errors, and wrapped
errors (the `%w` verb of `fmt.Errorf`). A nil error is `none : Option GoError`. -/
inductive GoError where
  | ErrServerClosed : GoError
  | ErrKeyNotFound : GoError
  | New (msg : String) : GoError
  | Wrap (msg : String) (inner : GoError) : GoError
  deriving DecidableEq, Repr

/-- Equality of results is decidable when it is on errors and on values. -/
instance instDecidableEqExcept {ε α : Type} [DecidableEq ε] [DecidableEq α] :
    DecidableEq (Except ε α)
  | .ok a, .ok b =>
    if h : a = b then isTrue (by rw [h]) else isFalse (fun h2 => h (by cases h2; rfl))
  | .error a, .error b =>
    if h : a = b then isTrue (by rw [h]) else isFalse (fun h2 => h (by cases h2; rfl))
  | .ok _, .error _ => isFalse (fun h => by cases h)
  | .error _, .ok _ => isFalse (fun h => by cases h)

namespace errors

/-- `errors.Is(err, target)`: `err` or some error in its unwrap chain equals
`target`. -/
def Is : GoError → GoError → Bool
  | .Wrap msg inner, target =>
      decide (GoError.Wrap msg inner = target) || Is inner target
  | err, target => decide (err = target)

end errors

/-! ## Package `short` -/

namespace short

/-- UTF-8 encoding of one code point. -/
def utf8EncodeChar (c : Char) : List Nat :=
  let v := c.toNat
  if v ≤ 0x7f then [v]
  else if v ≤ 0x7ff then [0xc0 + v / 64, 0x80 + v % 64]
  else if v ≤ 0xffff then [0xe0 + v / 4096, 0x80 + (v / 64) % 64, 0x80 + v % 64]
  else [0xf0 + v / 262144, 0x80 + (v / 4096) % 64, 0x80 + (v / 64) % 64, 0x80 + v % 64]

/-- The conversion `[]byte(text)`. -/
def bytesOf (text : String) : List Nat :=
  text.data.flatMap utf8EncodeChar

namespace md5

/-- Per-round left rotation amounts of RFC 1321. -/
def shifts : List Nat :=
  [7, 12, 17, 22, 7, 12, 17, 22, 7, 12, 17, 22, 7, 12, 17, 22,
   5, 9, 14, 20, 5, 9, 14, 20, 5, 9, 14, 20, 5, 9, 14, 20,
   4, 11, 16, 23, 4, 11, 16, 23, 4, 11, 16, 23, 4, 11, 16, 23,
   6, 10, 15, 21, 6, 10, 15, 21, 6, 10, 15, 21, 6, 10, 15, 21]

/-- The sine-derived additive constants of RFC 1321. -/
def table : List Nat :=
  [0xd76aa478, 0xe8c7b756, 0x242070db, 0xc1bdceee,
   0xf57c0faf, 0x4787c62a, 0xa8304613, 0xfd469501,
   0x698098d8, 0x8b44f7af, 0xffff5bb1, 0x895cd7be,
   0x6b901122, 0xfd987193, 0xa679438e, 0x49b40821,
   0xf61e2562, 0xc040b340, 0x265e5a51, 0xe9b6c7aa,
   0xd62f105d, 0x02441453, 0xd8a1e681, 0xe7d3fbc8,
   0x21e1cde6, 0xc33707d6, 0xf4d50d87, 0x455a14ed,
   0xa9e3e905, 0xfcefa3f8, 0x676f02d9, 0x8d2a4c8a,
   0xfffa3942, 0x8771f681, 0x6d9d6122, 0xfde5380c,
   0xa4beea44, 0x4bdecfa9, 0xf6bb4b60, 0xbebfbc70,
   0x289b7ec6, 0xeaa127fa, 0xd4ef3085, 0x04881d05,
   0xd9d4d039, 0xe6db99e5, 0x1fa27cf8, 0xc4ac5665,
   0xf4292244, 0x432aff97, 0xab9423a7, 0xfc93a039,
   0x655b59c3, 0x8f0ccc92, 0xffeff47d, 0x85845dd1,
   0x6fa87e4f, 0xfe2ce6e0, 0xa3014314, 0x4e0811a1,
   0xf7537e82, 0xbd3af235, 0x2ad7d2bb, 0xeb86d391]

/-- Word size modulus. -/
def W : Nat := 2 ^ 32

/-- Bitwise complement of a 32-bit word. -/
def not32 (x : Nat) : Nat := (W - 1) ^^^ (x % W)

/-- Left rotation of a 32-bit word by `c` bits. -/
def rotl32 (x c : Nat) : Nat :=
  (((x % W) <<< c) ||| ((x % W) >>> (32 - c))) % W

/-- Little-endian bytes of a word of `n` bytes. -/
def leBytes : Nat → Nat → List Nat
  | 0, _ => []
  | n + 1, x => (x % 256) :: leBytes n (x / 256)

/-- Little-endian 32-bit word starting at byte offset `4 * j` of a block. -/
def wordAt (block : List Nat) (j : Nat) : Nat :=
  (block.getD (4 * j) 0) % 256
    + 256 * ((block.getD (4 * j + 1) 0) % 256)
    + 65536 * ((block.getD (4 * j + 2) 0) % 256)
    + 16777216 * ((block.getD (4 * j + 3) 0) % 256)

/-- The four chaining words `(a, b, c, d)`. -/
structure State where
  a : Nat
  b : Nat
  c : Nat
  d : Nat
  deriving DecidableEq, Repr

/-- Initial chaining value. -/
def init : State :=
  { a := 0x67452301, b := 0xefcdab89, c := 0x98badcfe, d := 0x10325476 }

/-- One of the 64 steps of the block function. -/
def step (block : List Nat) (s : State) (i : Nat) : State :=
  let fg : Nat × Nat :=
    if i < 16 then ((s.b &&& s.c) ||| (not32 s.b &&& s.d), i)
    else if i < 32 then ((s.d &&& s.b) ||| (not32 s.d &&& s.c), (5 * i + 1) % 16)
    else if i < 48 then (s.b ^^^ s.c ^^^ s.d, (3 * i + 5) % 16)
    else (s.c ^^^ (s.b ||| not32 s.d), (7 * i) % 16)
  let f := (fg.1 + s.a + table.getD i 0 + wordAt block fg.2) % W
  { a := s.d, d := s.c, c := s.b, b := (s.b + rotl32 f (shifts.getD i 0)) % W }

/-- The block function: 64 steps, then the feed-forward addition. -/
def block (s : State) (blk : List Nat) : State :=
  let t := (List.range 64).foldl (step blk) s
  { a := (s.a + t.a) % W, b := (s.b + t.b) % W,
    c := (s.c + t.c) % W, d := (s.d + t.d) % W }

/-- Message padding: a `0x80` byte, zeros up to 56 modulo 64, then the bit
length as a 64-bit little-endian integer. -/
def pad (msg : List Nat) : List Nat :=
  let n := msg.length
  msg ++ [0x80] ++ List.replicate ((119 - n % 64) % 64) 0
    ++ leBytes 8 ((8 * n) % 2 ^ 64)

/-- The blocks of 64 bytes of a padded message. -/
def blocks (p : List Nat) : List (List Nat) :=
  (List.range (p.length / 64)).map fun k => (p.drop (64 * k)).take 64

/-- The function `md5.Sum`: the 16-byte digest of `data`. -/
def Sum (data : List Nat) : List Nat :=
  let s := (blocks (pad data)).foldl block init
  leBytes 4 s.a ++ leBytes 4 s.b ++ leBytes 4 s.c ++ leBytes 4 s.d

end md5

namespace hex

/-- The digit alphabet of `encoding/hex`. -/
def hextable : List Char := "0123456789abcdef".data

/-- The function `hex.EncodeToString`: two digits per byte, high nibble first. -/
def EncodeToString (src : List Nat) : String :=
  String.mk (src.flatMap fun v =>
    [hextable.getD ((v % 256) / 16) '0', hextable.getD ((v % 256) % 16) '0'])

end hex

/-- The type `MD5`: a hasher without state. -/
structure MD5 where
  deriving DecidableEq, Repr

/-- The constructor `NewMD5`. -/
def NewMD5 : MD5 := {}

/-- The method `MD5.Hash`: the digest produced from the input string. -/
def MD5.Hash (_hasher : MD5) (text : String) : String :=
  let hash := md5.Sum (bytesOf text)
  hex.EncodeToString hash

/-- The interface `Hasher`: a method to "hashify" a string. -/
structure Hasher where
  Hash : String → String

/-- The type `MD5` implements `Hasher`. -/
def MD5.toHasher (hasher : MD5) : Hasher := { Hash := hasher.Hash }

end short


/-! ## The embedded store -/

namespace badger

/-- Modelled from the spec: the state of a `badger.DB`, the embedded store of
an external library. The store is a finite key-to-value map with unique keys,
held as an association list; `rejects` is the library's check of an entry
before it is written, the storage failure of a write. -/
structure DB where
  entries : List (String × String)
  rejects : String → String → Option GoError

/-- Modelled from the spec: a store just created, holding no mapping. -/
def empty (rejects : String → String → Option GoError) : DB :=
  { entries := [], rejects := rejects }

/-- Modelled from the spec: a transaction `badger.Txn`, the view of the map it
works on and whether it may write. -/
structure Txn where
  entries : List (String × String)
  rejects : String → String → Option GoError
  update : Bool

/-- Modelled from the spec: a `badger.Item`, a mapping found in the store. -/
structure Item where
  key : String
  value : String
  deriving DecidableEq, Repr

/-- The error of a write inside a read-only transaction. -/
def ErrReadOnlyTxn : GoError :=
  .New "No sets or deletes are allowed in a read-only transaction"

/-- Modelled from the spec: `txn.Get`, the item of `key`, or `ErrKeyNotFound`
when the key is absent. -/
def Txn.Get (txn : Txn) (key : String) : Except GoError Item :=
  match txn.entries.lookup key with
  | some value => .ok { key := key, value := value }
  | none => .error .ErrKeyNotFound

/-- Modelled from the spec: `txn.Set`, which overwrites the mapping of `key`
unless the entry is rejected. -/
def Txn.Set (txn : Txn) (key value : String) : Option GoError × Txn :=
  if !txn.update then (some ErrReadOnlyTxn, txn)
  else
    match txn.rejects key value with
    | some err => (some err, txn)
    | none =>
      (none, { txn with entries := (key, value) :: txn.entries.filter fun e => e.1 != key })

/-- Modelled from the spec: `item.Value`, which hands the stored value to `fn`.
The variable captured by the closure is passed through as `a`. -/
def Item.Value {α : Type} (item : Item) (fn : String → α → Option GoError × α) (a : α) :
    Option GoError × α :=
  fn item.value a

/-- Modelled from the spec: `db.View`, which runs `fn` in a read-only
transaction and discards the transaction. -/
def DB.View {α : Type} (db : DB) (fn : Txn → α → Option GoError × α) (a : α) :
    (Option GoError × α) × DB :=
  (fn { entries := db.entries, rejects := db.rejects, update := false } a, db)

/-- Modelled from the spec: `db.Update`, which runs `fn` in a read-write
transaction and commits it when `fn` returns no error. -/
def DB.Update (db : DB) (fn : Txn → Option GoError × Txn) : Option GoError × DB :=
  match fn { entries := db.entries, rejects := db.rejects, update := true } with
  | (some err, _) => (some err, db)
  | (none, txn) => (none, { db with entries := txn.entries })

end badger

/-! ## Package `storage` -/

namespace storage

/-- The interface `Backend`: the two basic methods of a key-value store, over
the state `σ` of the store. `Get` returns the pair `(string, error)`. -/
structure Backend (σ : Type) where
  Get : σ → String → (String × Option GoError) × σ
  Put : σ → String → String → Option GoError × σ

/-- The type `BadgerBackend`: a backend implemented using BadgerDB. -/
structure BadgerBackend where
  db : badger.DB

/-- The method `BadgerBackend.Get`: the value saved under `key`, if present,
and a non-nil error if something goes wrong. -/
def BadgerBackend.Get (b : BadgerBackend) (key : String) :
    (String × Option GoError) × BadgerBackend :=
  let url := ""
  match b.db.View (fun txn url =>
      match txn.Get key with
      | .error err => (some err, url)
      | .ok item =>
        match item.Value (fun value _ => (none, value)) url with
        | (some err, url) => (some err, url)
        | (none, url) => (none, url)) url with
  | ((some err, _), db) => (("", some err), { b with db := db })
  | ((none, url), db) => ((url, none), { b with db := db })

/-- The method `BadgerBackend.Put`: saves the pair in the underlying storage,
and returns an error if something goes wrong. -/
def BadgerBackend.Put (b : BadgerBackend) (key value : String) :
    Option GoError × BadgerBackend :=
  match b.db.Update (fun txn =>
      match txn.Set key value with
      | (some err, txn) => (some err, txn)
      | (none, txn) => (none, txn)) with
  | (some err, db) => (some err, { b with db := db })
  | (none, db) => (none, { b with db := db })

/-- The type `BadgerBackend` implements `Backend`. -/
def BadgerBackend.toBackend : Backend BadgerBackend :=
  { Get := BadgerBackend.Get, Put := BadgerBackend.Put }

/-- A call on a backend. -/
inductive Op where
  | get (key : String) : Op
  | put (key value : String) : Op
  deriving DecidableEq, Repr

/-- The store after one call. -/
def Op.run (b : BadgerBackend) : Op → BadgerBackend
  | .get key => (b.Get key).2
  | .put key value => (b.Put key value).2

/-- The store after a sequence of calls, oldest first. -/
def runOps (b : BadgerBackend) (ops : List Op) : BadgerBackend :=
  ops.foldl Op.run b

/-- A call that writes `key`. -/
def Op.writes (key : String) : Op → Bool
  | .get _ => false
  | .put k _ => k == key

end storage

/-! ## The libraries the server is built on -/

namespace time

/-- The type `time.Duration`: a count of nanoseconds. -/
abbrev Duration := Int

/-- The constant `time.Second`. -/
def Second : Duration := 1000000000

end time

namespace mux

/-- The two handlers of the server. -/
inductive HandlerId where
  | redirect : HandlerId
  | shorten : HandlerId
  deriving DecidableEq, Repr

/-- A route of the router: path template, method and handler. -/
structure Route where
  path : String
  method : String
  handler : HandlerId
  deriving DecidableEq, Repr

/-- The type `mux.Router`, as the list of its routes in registration order. -/
structure Router where
  routes : List Route
  deriving DecidableEq, Repr

/-- The function `mux.NewRouter`. -/
def NewRouter : Router := { routes := [] }

/-- The call `router.HandleFunc(path, f).Methods(method)`. -/
def Router.HandleFunc (router : Router) (path : String) (f : HandlerId) (method : String) :
    Router :=
  { routes := router.routes ++ [{ path := path, method := method, handler := f }] }

end mux

namespace path

/-- The function `path.Split`: the path is split right after its final slash
into a directory and a file name; without a slash the directory is empty. -/
def Split (p : List Char) : List Char × List Char :=
  ((p.reverse.dropWhile (· != '/')).reverse, (p.reverse.takeWhile (· != '/')).reverse)

/-- The elements of a path, the texts between its slashes. -/
def elements : List Char → List (List Char)
  | [] => [[]]
  | c :: cs =>
    match elements cs with
    | [] => [[]]
    | e :: es => if c == '/' then [] :: e :: es else (c :: e) :: es

/-- One element of a path met by `path.Clean`, the elements kept so far being
`kept`, last first: an empty element and `.` are dropped, `..` removes the
element before it, is dropped at the root and is kept otherwise. -/
def cleanElement (rooted : Bool) (kept : List (List Char)) (e : List Char) :
    List (List Char) :=
  if e = [] ∨ e = ['.'] then kept
  else if e = ['.', '.'] then
    match kept with
    | [] => if rooted then [] else [e]
    | top :: below => if top = ['.', '.'] then e :: kept else below
  else e :: kept

/-- The function `path.Clean`: the shortest path equivalent to `p` by lexical
processing; the result ends in a slash only if it is the root, and the empty
result is `.`. -/
def Clean (p : List Char) : List Char :=
  let rooted := p.head? == some '/'
  let kept := (elements p).foldl (cleanElement rooted) []
  let out := (if rooted then ['/'] else []) ++ List.intercalate ['/'] kept.reverse
  if out = [] then ['.'] else out

end path

namespace urlpkg

/-- An ASCII letter. -/
def isLetter (c : Char) : Bool :=
  ('a' ≤ c && c ≤ 'z') || ('A' ≤ c && c ≤ 'Z')

/-- An ASCII digit. -/
def isDigit (c : Char) : Bool := '0' ≤ c && c ≤ '9'

/-- The function `ishex`. -/
def ishex (c : Char) : Bool :=
  isDigit c || ('a' ≤ c && c ≤ 'f') || ('A' ≤ c && c ≤ 'F')

/-- The function `stringContainsCTLByte`: a byte below the space, or `0x7f`. -/
def containsCTLByte (s : List Char) : Bool :=
  s.any fun c => c.toNat < 0x20 || c.toNat == 0x7f

/-- The scan of `getScheme` from position `i`: `none` is the error of a colon
in the first position, otherwise the scheme, which may be empty, and the rest. -/
def getSchemeFrom (rawURL : List Char) : Nat → List Char → Option (List Char × List Char)
  | _, [] => some ([], rawURL)
  | i, c :: cs =>
    if isLetter c then getSchemeFrom rawURL (i + 1) cs
    else if isDigit c || c == '+' || c == '-' || c == '.' then
      if i == 0 then some ([], rawURL) else getSchemeFrom rawURL (i + 1) cs
    else if c == ':' then
      if i == 0 then none else some (rawURL.take i, cs)
    else some ([], rawURL)

/-- The function `getScheme`. -/
def getScheme (rawURL : List Char) : Option (List Char × List Char) :=
  getSchemeFrom rawURL 0 rawURL

/-- Whether `unescape` accepts a path, a fragment or a user name: every
percent sign is followed by two hexadecimal digits. -/
def validEscapes : List Char → Bool
  | [] => true
  | c :: cs =>
    if c == '%' then
      match cs with
      | a :: b :: rest => ishex a && ishex b && validEscapes rest
      | _ => false
    else validEscapes cs

/-- The function `validUserinfo`. -/
def validUserinfo (s : List Char) : Bool :=
  s.all fun c => isLetter c || isDigit c || "-._:~!$&()*+,;=%@".data.contains c
    || c == Char.ofNat 39

/-- Whether `parseAuthority` returns no error and an empty host: the authority
is empty, or it ends with the `@` of a user information that is valid. A host
that is not empty is either refused or returned as a host that is not empty. -/
def emptyHost (authority : List Char) : Bool :=
  match authority.reverse with
  | [] => true
  | c :: revUser =>
    if c == '@' then
      let userinfo := revUser.reverse
      validUserinfo userinfo
        && validEscapes (userinfo.takeWhile (· != ':'))
        && validEscapes ((userinfo.dropWhile (· != ':')).drop 1)
    else false

/-- Whether `parse(u, false)` returns no error and a URL with neither scheme
nor host. A text with a scheme is either refused or given that scheme. -/
def parsesRelative (u : List Char) : Bool :=
  if containsCTLByte u then false
  else
    match getScheme u with
    | none => false
    | some (scheme, rest) =>
      let rest := rest.takeWhile (· != '?')
      if !scheme.isEmpty then false
      else if rest.head? != some '/' then
        !(rest.takeWhile (· != '/')).contains ':' && validEscapes rest
      else if rest.take 2 == ['/', '/'] && rest.take 3 != ['/', '/', '/'] then
        let authority := (rest.drop 2).takeWhile (· != '/')
        let rest := (rest.drop 2).dropWhile (· != '/')
        emptyHost authority && validEscapes rest
      else validEscapes rest

/-- What `http.Redirect` asks of `url.Parse(url)`: whether it returns no error
and a URL whose `Scheme` and `Host` are both empty. The fragment is cut off at
the first `#` and must unescape. -/
def isRelative (rawURL : String) : Bool :=
  let u := rawURL.data.takeWhile (· != '#')
  let frag := (rawURL.data.dropWhile (· != '#')).drop 1
  parsesRelative u && validEscapes frag

end urlpkg

namespace http

/-- The constant `http.StatusOK`. -/
def StatusOK : Nat := 200
/-- The constant `http.StatusTemporaryRedirect`. -/
def StatusTemporaryRedirect : Nat := 307
/-- The constant `http.StatusNotFound`. -/
def StatusNotFound : Nat := 404
/-- The constant `http.StatusInternalServerError`. -/
def StatusInternalServerError : Nat := 500
/-- The constant `http.MethodGet`. -/
def MethodGet : String := "GET"
/-- The constant `http.MethodPost`. -/
def MethodPost : String := "POST"

/-- The function `http.StatusText`, on the codes the server uses. -/
def StatusText (code : Nat) : String :=
  if code = 200 then "OK"
  else if code = 307 then "Temporary Redirect"
  else if code = 404 then "Not Found"
  else if code = 500 then "Internal Server Error"
  else ""

/-- The fields of `http.Server` the program sets. -/
structure Server where
  Addr : String
  WriteTimeout : time.Duration
  ReadTimeout : time.Duration
  IdleTimeout : time.Duration
  Handler : mux.Router
  deriving DecidableEq, Repr

/-- A request: method, path, body and the route variables `mux.Vars` reads. -/
structure Request where
  Method : String
  Path : String
  Body : String
  Vars : List (String × String)
  deriving DecidableEq, Repr

/-- Response headers, one value for each name. -/
abbrev Header := List (String × String)

/-- The method `Header.Set`. -/
def Header.Set (h : Header) (key value : String) : Header :=
  (key, value) :: h.filter fun e => e.1 != key

/-- The method `Header.Get`: the empty string for a name not set. -/
def Header.Get (h : Header) (key : String) : String :=
  (h.lookup key).getD ""

/-- An `http.ResponseWriter` that records the response, as
`httptest.ResponseRecorder` does: the status code is 200 until a header is
written. `writeErr` is the error its `Write` returns, nil for a recorder. -/
structure ResponseWriter where
  HeaderMap : Header
  Code : Nat
  wroteHeader : Bool
  Body : String
  writeErr : Option GoError
  deriving DecidableEq, Repr

/-- The function `httptest.NewRecorder`. -/
def NewRecorder : ResponseWriter :=
  { HeaderMap := [], Code := 200, wroteHeader := false, Body := "", writeErr := none }

/-- The method `WriteHeader`: only the first call sets the status code. -/
def ResponseWriter.WriteHeader (w : ResponseWriter) (code : Nat) : ResponseWriter :=
  if w.wroteHeader then w else { w with Code := code, wroteHeader := true }

/-- The method `Write`: writes the header with status 200 if none was written,
then appends to the body. -/
def ResponseWriter.Write (w : ResponseWriter) (b : String) : Option GoError × ResponseWriter :=
  match w.writeErr with
  | some err => (some err, w)
  | none =>
    let w := w.WriteHeader StatusOK
    (none, { w with Body := w.Body ++ b })

/-- The function `http.Error`: replies with the plain text message and the
status code. -/
def Error (w : ResponseWriter) (error : String) (code : Nat) : ResponseWriter :=
  let h := (w.HeaderMap.Set "Content-Type" "text/plain; charset=utf-8").Set
    "X-Content-Type-Options" "nosniff"
  let w := { w with HeaderMap := h }
  let w := w.WriteHeader code
  (w.Write (error ++ "\n")).2

/-- The escaping of the link target in the body of a redirect. -/
def htmlEscape (s : String) : String :=
  String.mk (s.data.flatMap fun c =>
    if c = '&' then "&amp;".data
    else if c = '<' then "&lt;".data
    else if c = '>' then "&gt;".data
    else if c = '"' then "&#34;".data
    else if c = Char.ofNat 39 then "&#39;".data
    else [c])

/-- The function `hexEscapeNonASCII` of `net/http`: every byte of the text of
128 or more is written as a percent sign and its two hexadecimal digits. -/
def hexEscapeNonASCII (s : String) : String :=
  String.mk (s.data.flatMap fun c =>
    if c.toNat < 128 then [c]
    else (short.utf8EncodeChar c).flatMap fun b =>
      ['%', short.hex.hextable.getD (b / 16) '0', short.hex.hextable.getD (b % 16) '0'])

/-- The first block of `http.Redirect`: a target that `url.Parse` accepts with
neither scheme nor host is made absolute by combining it with the path of the
request, and cleaned with its trailing slash and its query kept; every other
target is left as it is. -/
def redirectTarget (r : Request) (url : String) : String :=
  if urlpkg.isRelative url then
    let oldpath := if r.Path == "" then "/" else r.Path
    let url : List Char :=
      if url.data.head? != some '/' then (path.Split oldpath.data).1 ++ url.data
      else url.data
    let query := url.dropWhile (· != '?')
    let url := url.takeWhile (· != '?')
    let trailing := url.getLast? == some '/'
    let url := path.Clean url
    let url := if trailing && url.getLast? != some '/' then url ++ ['/'] else url
    String.mk (url ++ query)
  else url

/-- The function `http.Redirect`: replies with a redirect to `url`, which may
be a path relative to the request path, and the status `code`. -/
def Redirect (w : ResponseWriter) (r : Request) (url : String) (code : Nat) : ResponseWriter :=
  let url := redirectTarget r url
  let hadCT := (w.HeaderMap.lookup "Content-Type").isSome
  let h := w.HeaderMap.Set "Location" (hexEscapeNonASCII url)
  let h := if !hadCT && (r.Method == "GET" || r.Method == "HEAD")
    then h.Set "Content-Type" "text/html; charset=utf-8" else h
  let w := { w with HeaderMap := h }
  let w := w.WriteHeader code
  if !hadCT && r.Method == "GET" then
    let body := "<a href=\"" ++ htmlEscape url ++ "\">" ++ StatusText code ++ "</a>.\n"
    (w.Write (body ++ "\n")).2
  else w

end http

namespace yaus

/-- The request body of the shorten handler. -/
structure reqBody where
  URL : String
  deriving DecidableEq, Repr

/-- The response of the shorten handler. -/
structure response where
  Hash : String
  deriving DecidableEq, Repr

end yaus

namespace json

/-- The two uses of `encoding/json`, an external library: `Decode` is
`json.NewDecoder(body).Decode(&rb)` on a request body, and `Marshal` gives the
bytes that `json.NewEncoder(w).Encode` writes for a response. -/
structure Codec where
  Decode : String → Except GoError yaus.reqBody
  Marshal : yaus.response → String

/-- The call `json.NewEncoder(w).Encode(v)`: one write of the marshalled value. -/
def Codec.Encode (js : Codec) (w : http.ResponseWriter) (v : yaus.response) :
    Option GoError × http.ResponseWriter :=
  w.Write (js.Marshal v)

end json

/-! ## Package `yaus` -/

namespace yaus

/-- The constant `DefaultWriteTimeout`. -/
def DefaultWriteTimeout : time.Duration := 15 * time.Second
/-- The constant `DefaultReadTimeout`. -/
def DefaultReadTimeout : time.Duration := 15 * time.Second
/-- The constant `DefaultIdleTimeout`. -/
def DefaultIdleTimeout : time.Duration := 60 * time.Second

/-- A `zap.SugaredLogger`, known by its name. -/
structure Logger where
  name : String
  deriving DecidableEq, Repr

/-- What a run of the server does to the world outside it: the calls on the
backend, the log entries and the operations on the error channel. -/
inductive Event where
  | cacheGet (key : String) : Event
  | cachePut (key value : String) : Event
  | logError (msg : String) (err : GoError) : Event
  | logInfo (msg : String) (fields : List (String × String)) : Event
  | send (err : GoError) : Event
  | close : Event
  deriving DecidableEq, Repr

/-- The type `Server`: an HTTP server that supports graceful shutdown. The
state of the backend is `σ`. -/
structure Server (σ : Type) where
  server : http.Server
  shortener : short.Hasher
  cache : storage.Backend σ
  logger : Logger

/-- The type `Option` of the package: a function able to set a configuration
option on the server. -/
abbrev ServerOption (σ : Type) := Server σ → Server σ

/-- The option `Address`: sets `addr` as the listening address. -/
def Address {σ : Type} (addr : String) : ServerOption σ :=
  fun s => { s with server := { s.server with Addr := addr } }

/-- The option `WriteTimeout`: sets the write timeout. -/
def WriteTimeout {σ : Type} (d : time.Duration) : ServerOption σ :=
  fun s => { s with server := { s.server with WriteTimeout := d } }

/-- The option `ReadTimeout`: sets the read timeout. -/
def ReadTimeout {σ : Type} (d : time.Duration) : ServerOption σ :=
  fun s => { s with server := { s.server with ReadTimeout := d } }

/-- The option `IdleTimeout`: sets the idle timeout. -/
def IdleTimeout {σ : Type} (d : time.Duration) : ServerOption σ :=
  fun s => { s with server := { s.server with IdleTimeout := d } }

/-- The function `NewServer`: default values, then the options in order, then
the two routes registered on the router the server holds. -/
def NewServer {σ : Type} (cache : storage.Backend σ) (shortener : short.Hasher)
    (logger : Logger) (options : List (ServerOption σ)) : Server σ :=
  let router := mux.NewRouter
  let srv : Server σ :=
    { server :=
        { Addr := "",
          WriteTimeout := DefaultWriteTimeout,
          ReadTimeout := DefaultReadTimeout,
          IdleTimeout := DefaultIdleTimeout,
          Handler := router },
      shortener := shortener,
      cache := cache,
      logger := logger }
  let srv := options.foldl (fun srv opt => opt srv) srv
  let router := srv.server.Handler.HandleFunc "/\x7bhash\x7d" .redirect http.MethodGet
  let router := router.HandleFunc "/shorten" .shorten http.MethodPost
  { srv with server := { srv.server with Handler := router } }

/-- The goroutine of `Run`, given the result `err` of `ListenAndServe`: its
events in order, the deferred close of the channel last. -/
def Server.Run {σ : Type} (s : Server σ) (err : Option GoError) : List Event :=
  let started := [Event.logInfo "server start listening" [("address", s.server.Addr)]]
  let served :=
    match err with
    | some err => if !errors.Is err .ErrServerClosed then [Event.send err] else []
    | none => []
  started ++ served ++ [Event.logInfo "server is stopping..." []] ++ [Event.close]

/-- The state of the world a handler runs in: the store behind the backend
and the events so far, oldest first. -/
structure World (σ : Type) where
  store : σ
  trace : List Event

/-- The handler `redirect`. -/
def Server.redirect {σ : Type} (s : Server σ) (world : World σ) (w : http.ResponseWriter)
    (r : http.Request) : World σ × http.ResponseWriter :=
  let params := r.Vars
  let key := (params.lookup "hash").getD ""
  match s.cache.Get world.store key with
  | ((_, some err), store) =>
    let world := { store := store,
                   trace := world.trace ++ [.cacheGet key, .logError "cache get" err] }
    (world, http.Error w (http.StatusText http.StatusInternalServerError)
      http.StatusInternalServerError)
  | ((url, none), store) =>
    let world := { store := store, trace := world.trace ++ [.cacheGet key] }
    (world, http.Redirect w r url http.StatusTemporaryRedirect)

/-- The handler `shorten`. -/
def Server.shorten {σ : Type} (s : Server σ) (js : json.Codec) (world : World σ)
    (w : http.ResponseWriter) (r : http.Request) : World σ × http.ResponseWriter :=
  match js.Decode r.Body with
  | .error err =>
    ({ world with trace := world.trace ++ [.logError "shorten decode" err] },
      http.Error w (http.StatusText http.StatusInternalServerError)
        http.StatusInternalServerError)
  | .ok rb =>
    let key := s.shortener.Hash rb.URL
    match s.cache.Put world.store key rb.URL with
    | (some err, store) =>
      ({ store := store,
         trace := world.trace ++ [.cachePut key rb.URL, .logError "cache put" err] },
        http.Error w (http.StatusText http.StatusInternalServerError)
          http.StatusInternalServerError)
    | (none, store) =>
      let world : World σ := { store := store, trace := world.trace ++ [.cachePut key rb.URL] }
      match js.Encode w { Hash := key } with
      | (some err, w) =>
        ({ world with trace := world.trace ++ [.logError "shorten encode" err] },
          http.Error w (http.StatusText http.StatusInternalServerError)
            http.StatusInternalServerError)
      | (none, w) => (world, w)

end yaus

/-! ## The error channel of `Run` -/

namespace yaus

/-- The channel `errs` as its receiver sees it: the values handed over so far,
oldest first, and whether the channel is closed. The channel has no buffer, so
a value sent is a value received; the receiver takes every value offered. -/
structure Chan where
  values : List GoError
  closed : Bool
  deriving DecidableEq, Repr

/-- The call `make(chan error)`. -/
def Chan.make : Chan := { values := [], closed := false }

/-- One event on the channel. A send or a close on a closed channel panics,
which is `none`. -/
def Chan.apply (c : Chan) : Event → Option Chan
  | .send err => if c.closed then none else some { c with values := c.values ++ [err] }
  | .close => if c.closed then none else some { c with closed := true }
  | _ => some c

/-- The channel after a sequence of events. -/
def Chan.run (c : Chan) : List Event → Option Chan
  | [] => some c
  | e :: es =>
    match c.apply e with
    | some c => Chan.run c es
    | none => none

/-! ## Options by name -/

/-- The options the package exports, by constructor and argument. -/
inductive Setting where
  | address (addr : String) : Setting
  | writeTimeout (d : time.Duration) : Setting
  | readTimeout (d : time.Duration) : Setting
  | idleTimeout (d : time.Duration) : Setting
  deriving DecidableEq, Repr

/-- The option a setting stands for. -/
def Setting.toOption {σ : Type} : Setting → ServerOption σ
  | .address addr => Address addr
  | .writeTimeout d => WriteTimeout d
  | .readTimeout d => ReadTimeout d
  | .idleTimeout d => IdleTimeout d

/-- The address of the last setting in the list that targets the address. -/
def lastAddress (l : List Setting) : Option String :=
  l.reverse.findSome? fun
    | .address addr => some addr
    | _ => none

/-- The duration of the last setting in the list that targets the write timeout. -/
def lastWriteTimeout (l : List Setting) : Option time.Duration :=
  l.reverse.findSome? fun
    | .writeTimeout d => some d
    | _ => none

/-- The duration of the last setting in the list that targets the read timeout. -/
def lastReadTimeout (l : List Setting) : Option time.Duration :=
  l.reverse.findSome? fun
    | .readTimeout d => some d
    | _ => none

/-- The duration of the last setting in the list that targets the idle timeout. -/
def lastIdleTimeout (l : List Setting) : Option time.Duration :=
  l.reverse.findSome? fun
    | .idleTimeout d => some d
    | _ => none

/-! ## The fixtures of the tests -/

/-- The type `MockBackend` of the tests, a backend without state. -/
def MockBackend : storage.Backend Unit :=
  { Get := fun st key =>
      if key == "test-hash" then (("http://www.example.com", none), st)
      else (("", some (.New "not found")), st),
    Put := fun st key _ =>
      if key == "test-hash" then (none, st)
      else (some (.New "wrong key"), st) }

/-- The type `MockShortener` of the tests. -/
def MockShortener : short.Hasher :=
  { Hash := fun text => if text == "http://www.example.com" then "test-hash" else "" }

/-- The server of the tests. -/
def testServer : Server Unit :=
  { server := { Addr := "", WriteTimeout := 0, ReadTimeout := 0, IdleTimeout := 0,
                Handler := mux.NewRouter },
    shortener := MockShortener,
    cache := MockBackend,
    logger := { name := "test" } }

/-- The server of the command: the MD5 hasher over a Badger backend. -/
def badgerServer : Server storage.BadgerBackend :=
  NewServer storage.BadgerBackend.toBackend short.NewMD5.toHasher { name := "yaus" }
    [Address ":8080"]

/-- A backend whose storage fails: every call returns an I/O error. -/
def brokenBackend : storage.Backend Unit :=
  { Get := fun st _ => (("", some (.New "input/output error")), st),
    Put := fun st _ _ => (some (.New "input/output error"), st) }

/-- The server of the tests over the backend whose storage fails. -/
def brokenServer : Server Unit :=
  { testServer with cache := brokenBackend }

/-- A store just created that rejects nothing. -/
def freshBackend : storage.BadgerBackend :=
  { db := badger.empty fun _ _ => none }

/-- A store just created that rejects the empty key. -/
def strictBackend : storage.BadgerBackend :=
  { db := badger.empty fun key _ =>
      if key == "" then some (.New "Key cannot be empty") else none }

/-- The request of `TestShorten`. -/
def shortenRequest : http.Request :=
  { Method := "GET", Path := "/shorten",
    Body := "\x7b\"url\":\"http://www.example.com\"\x7d", Vars := [] }

/-- The request of `TestRedirect`. -/
def redirectRequest : http.Request :=
  { Method := "GET", Path := "/", Body := "", Vars := [("hash", "test-hash")] }

/-- A request for a hash that was never stored. -/
def unknownRequest : http.Request :=
  { Method := "GET", Path := "/unknown-hash", Body := "", Vars := [("hash", "unknown-hash")] }

/-- A request to shorten whose body is not JSON. -/
def malformedRequest : http.Request :=
  { Method := "POST", Path := "/shorten", Body := "not json", Vars := [] }

end yaus

namespace json

/-- A codec for the bodies of the tests: it decodes an object with the one
member `url` whose text has no quote and no backslash, refuses every other
body, and marshals a response as the object with the one member `hash`
followed by a newline. On these texts it agrees with `encoding/json`. -/
def testCodec : Codec :=
  { Decode := fun body =>
      let opening := "\x7b\"url\":\"".data
      let closing := "\"\x7d".data
      let rest := body.data.drop opening.length
      let text := rest.take (rest.length - closing.length)
      if body.data = opening ++ text ++ closing
          && text.all (fun c => c != '"' && c != '\\') then
        .ok { URL := String.mk text }
      else .error (.New "invalid character"),
    Marshal := fun v => "\x7b\"hash\":\"" ++ v.Hash ++ "\"\x7d\n" }

end json

namespace yaus

/-- A request to shorten a target without scheme. -/
def relativeRequest : http.Request :=
  { Method := "POST", Path := "/shorten",
    Body := "\x7b\"url\":\"example.com\"\x7d", Vars := [] }

/-- The world after the server of the command has answered `relativeRequest`
on a store just created. -/
def relativeWorld : World storage.BadgerBackend :=
  (badgerServer.shorten json.testCodec ⟨freshBackend, []⟩ http.NewRecorder relativeRequest).1

/-- The request for the hash the server gave to `example.com`. -/
def relativeLookup : http.Request :=
  { Method := "GET", Path := "/5ababd603b22780302dd8d83498e5172", Body := "",
    Vars := [("hash", "5ababd603b22780302dd8d83498e5172")] }

end yaus

/-! ## The hasher -/

namespace short

theorem md5.leBytes_length (n x : Nat) : (md5.leBytes n x).length = n := by
  induction n generalizing x with
  | zero => rfl
  | succ n ih => simp [md5.leBytes, ih]

theorem md5.leBytes_lt (n x b : Nat) (hb : b ∈ md5.leBytes n x) : b < 256 := by
  induction n generalizing x with
  | zero => simp [md5.leBytes] at hb
  | succ n ih =>
    simp only [md5.leBytes, List.mem_cons] at hb
    rcases hb with h | h
    · omega
    · exact ih _ h

theorem md5.Sum_length (data : List Nat) : (md5.Sum data).length = 16 := by
  simp [md5.Sum, md5.leBytes_length]

theorem md5.Sum_lt (data : List Nat) (b : Nat) (hb : b ∈ md5.Sum data) : b < 256 := by
  simp only [md5.Sum, List.mem_append] at hb
  rcases hb with ((h | h) | h) | h <;> exact md5.leBytes_lt _ _ _ h

theorem hex.EncodeToString_length (src : List Nat) :
    (hex.EncodeToString src).length = 2 * src.length := by
  simp only [hex.EncodeToString, String.length]
  induction src with
  | nil => rfl
  | cons v vs ih =>
    rw [List.flatMap_cons, List.length_append, ih]
    simp only [List.length_cons, List.length_nil]
    omega

theorem hex.hextable_digit : ∀ i, i < 16 → hex.hextable.getD i '0' ∈ hex.hextable := by
  decide

theorem hex.EncodeToString_digits (src : List Nat) (c : Char)
    (hc : c ∈ (hex.EncodeToString src).data) : c ∈ hex.hextable := by
  simp only [hex.EncodeToString, List.mem_flatMap, List.mem_cons, List.mem_singleton,
    List.not_mem_nil, or_false] at hc
  obtain ⟨v, -, h | h⟩ := hc
  · rw [h]; exact hex.hextable_digit _ (by omega)
  · rw [h]; exact hex.hextable_digit _ (by omega)

end short

/-! ## The store -/

namespace storage

theorem lookup_filter_ne (es : List (String × String)) (k k' : String) (h : k' ≠ k) :
    (es.filter fun e => e.1 != k).lookup k' = es.lookup k' := by
  induction es with
  | nil => rfl
  | cons e es ih =>
    obtain ⟨a, b⟩ := e
    by_cases hak : a = k
    · subst hak
      have hne : (k' == a) = false := by simpa using h
      simp [List.filter_cons, List.lookup_cons, hne, ih]
    · have hk : (a != k) = true := by simpa using hak
      simp only [List.filter_cons, hk, if_true, List.lookup_cons, ih]

theorem BadgerBackend.Get_eq (b : BadgerBackend) (key : String) :
    b.Get key =
      (match b.db.entries.lookup key with
        | some value => (value, none)
        | none => ("", some GoError.ErrKeyNotFound), b) := by
  simp only [BadgerBackend.Get, badger.DB.View, badger.Txn.Get, badger.Item.Value]
  cases b.db.entries.lookup key <;> rfl

theorem BadgerBackend.Put_eq (b : BadgerBackend) (key value : String) :
    b.Put key value =
      match b.db.rejects key value with
      | some err => (some err, b)
      | none =>
        (none, { db := { entries := (key, value) :: b.db.entries.filter fun e => e.1 != key,
                         rejects := b.db.rejects } }) := by
  simp only [BadgerBackend.Put, badger.DB.Update, badger.Txn.Set]
  cases b.db.rejects key value <;> rfl

theorem BadgerBackend.Put_lookup_self (b : BadgerBackend) (key value : String)
    (h : (b.Put key value).1 = none) :
    (b.Put key value).2.db.entries.lookup key = some value := by
  rw [BadgerBackend.Put_eq] at h ⊢
  cases hr : b.db.rejects key value with
  | some err => simp [hr] at h
  | none => simp [List.lookup_cons]

theorem BadgerBackend.Put_lookup_other (b : BadgerBackend) (key value k' : String)
    (h : k' ≠ key) :
    (b.Put key value).2.db.entries.lookup k' = b.db.entries.lookup k' := by
  rw [BadgerBackend.Put_eq]
  cases hr : b.db.rejects key value with
  | some err => rfl
  | none =>
    have hne : (k' == key) = false := by simpa using h
    simp [List.lookup_cons, hne, lookup_filter_ne _ _ _ h]

theorem Op.run_lookup (b : BadgerBackend) (op : Op) (k : String)
    (h : op.writes k = false) :
    (op.run b).db.entries.lookup k = b.db.entries.lookup k := by
  cases op with
  | get key => simp [Op.run, BadgerBackend.Get_eq]
  | put key value =>
    have hne : k ≠ key := by
      intro hk
      simp [Op.writes, hk] at h
    exact BadgerBackend.Put_lookup_other b key value k hne

theorem runOps_lookup (b : BadgerBackend) (ops : List Op) (k : String)
    (h : ∀ op ∈ ops, op.writes k = false) :
    (runOps b ops).db.entries.lookup k = b.db.entries.lookup k := by
  induction ops generalizing b with
  | nil => rfl
  | cons op ops ih =>
    simp only [runOps, List.foldl_cons]
    have h1 := ih (op.run b) (fun o ho => h o (List.mem_cons_of_mem _ ho))
    simp only [runOps] at h1
    rw [h1, Op.run_lookup b op k (h op (List.mem_cons_self _ _))]

end storage

/-! ## Properties of the store and of the hasher -/

namespace storage

/-- C6: over the store as a finite map, once `Put(k, v)` has returned no error,
`Get(k)` returns exactly `v` with no error and leaves the store as it is after
any sequence of calls that has no `Put` to `k`; a later successful `Put(k, v2)`
replaces the value, so the last writer wins; `Get` never changes the store; and
`Put(k, v)` leaves what `Get` returns for every other key unchanged. -/
theorem badger_put_get_last_writer_wins (b : BadgerBackend) (k v : String) (ops : List Op)
    (hput : (b.Put k v).1 = none)
    (hops : ∀ op ∈ ops, op.writes k = false) :
    (runOps (b.Put k v).2 ops).Get k = ((v, none), runOps (b.Put k v).2 ops)
    ∧ (∀ (v2 : String) (ops2 : List Op),
        ((runOps (b.Put k v).2 ops).Put k v2).1 = none →
        (∀ op ∈ ops2, op.writes k = false) →
        ((runOps ((runOps (b.Put k v).2 ops).Put k v2).2 ops2).Get k).1 = (v2, none))
    ∧ (∀ (b' : BadgerBackend) (k' : String), (b'.Get k').2 = b')
    ∧ (∀ k' : String, k' ≠ k → ((b.Put k v).2.Get k').1 = (b.Get k').1) := by
  refine ⟨?_, ?_, ?_, ?_⟩
  · rw [BadgerBackend.Get_eq, runOps_lookup _ ops k hops, BadgerBackend.Put_lookup_self b k v hput]
  · intro v2 ops2 h2 hops2
    rw [BadgerBackend.Get_eq, runOps_lookup _ ops2 k hops2,
      BadgerBackend.Put_lookup_self _ k v2 h2]
  · intro b' k'
    rw [BadgerBackend.Get_eq]
  · intro k' hk
    rw [BadgerBackend.Get_eq, BadgerBackend.Get_eq, BadgerBackend.Put_lookup_other b k v k' hk]

/-- Witness of C6: on a store that rejects the empty key, `Put("k", "v")`
succeeds and is followed by a read, a write to another key and a rejected
write. -/
theorem badger_put_get_last_writer_wins_witness :
    (runOps (yaus.strictBackend.Put "k" "v").2
        [.get "k", .put "other" "w", .get "missing", .put "" "x"]).Get "k"
      = (("v", none),
          runOps (yaus.strictBackend.Put "k" "v").2
            [.get "k", .put "other" "w", .get "missing", .put "" "x"]) :=
  (badger_put_get_last_writer_wins yaus.strictBackend "k" "v"
    [.get "k", .put "other" "w", .get "missing", .put "" "x"] (by decide) (by decide)).1

/-- C7: for a key that was never written, that is after any sequence of calls
on a store just created among which there is no `Put` to the key, `Get(k)`
returns the empty string and the error `ErrKeyNotFound` itself, which no error
made by `errors.New` is. -/
theorem badger_get_never_written (rejects : String → String → Option GoError)
    (ops : List Op) (k : String) (hops : ∀ op ∈ ops, op.writes k = false) :
    ((runOps { db := badger.empty rejects } ops).Get k).1 = ("", some GoError.ErrKeyNotFound)
    ∧ (∀ err, ((runOps { db := badger.empty rejects } ops).Get k).1.2 = some err →
        errors.Is err .ErrKeyNotFound = true ∧ ∀ msg, err ≠ .New msg) := by
  have h : ((runOps { db := badger.empty rejects } ops).Get k).1
      = ("", some GoError.ErrKeyNotFound) := by
    rw [BadgerBackend.Get_eq, runOps_lookup _ ops k hops]
    rfl
  refine ⟨h, ?_⟩
  intro err herr
  rw [h] at herr
  cases herr
  exact ⟨rfl, fun msg hmsg => by cases hmsg⟩

/-- Witness of C7: the key `"b"` after a write to `"a"` and a read of `"b"`. -/
theorem badger_get_never_written_witness :
    ((runOps { db := badger.empty fun _ _ => none } [.put "a" "x", .get "b"]).Get "b").1
      = ("", some GoError.ErrKeyNotFound) :=
  (badger_get_never_written (fun _ _ => none) [.put "a" "x", .get "b"] "b" (by decide)).1

end storage

namespace short

set_option maxRecDepth 100000 in
/-- C8: for every text, the empty one included, `MD5.Hash(text)` is the
lowercase hexadecimal encoding of the MD5 digest of the bytes of the text, a
digest of 16 bytes; the key has exactly 32 characters, each of them in
`0-9a-f`, is never empty, and is the same for the same text whichever hasher
value computes it; `Hash("test-text")` is `cf0feea200efdea7d8580c7d4ef57ced`. -/
theorem md5_hash_is_hex_digest (hasher : MD5) (text : String) :
    hasher.Hash text = hex.EncodeToString (md5.Sum (bytesOf text))
    ∧ (md5.Sum (bytesOf text)).length = 16
    ∧ (∀ b ∈ md5.Sum (bytesOf text), b < 256)
    ∧ (hasher.Hash text).length = 32
    ∧ (∀ c ∈ (hasher.Hash text).data, c ∈ "0123456789abcdef".data)
    ∧ hasher.Hash text ≠ ""
    ∧ (∀ other : MD5, other.Hash text = hasher.Hash text)
    ∧ hasher.Hash "test-text" = "cf0feea200efdea7d8580c7d4ef57ced"
    ∧ hasher.Hash "" = "d41d8cd98f00b204e9800998ecf8427e" := by
  have hlen : (hasher.Hash text).length = 32 := by
    simp only [MD5.Hash, hex.EncodeToString_length, md5.Sum_length]
  refine ⟨rfl, md5.Sum_length _, md5.Sum_lt _, hlen, ?_, ?_, fun _ => rfl, ?_, ?_⟩
  · intro c hc
    exact hex.EncodeToString_digits _ c hc
  · intro h
    rw [h] at hlen
    exact absurd hlen (by decide)
  · cases hasher
    decide
  · cases hasher
    decide

end short

/-! ## The handlers -/

namespace http

theorem Error_NewRecorder :
    Error NewRecorder (StatusText StatusInternalServerError) StatusInternalServerError
      = { HeaderMap := [("X-Content-Type-Options", "nosniff"),
                        ("Content-Type", "text/plain; charset=utf-8")],
          Code := 500, wroteHeader := true, Body := "Internal Server Error\n",
          writeErr := none } := by
  decide

theorem Write_NewRecorder (b : String) :
    NewRecorder.Write b
      = (none, { HeaderMap := [], Code := 200, wroteHeader := true, Body := b,
                 writeErr := none }) := by
  simp [ResponseWriter.Write, ResponseWriter.WriteHeader, NewRecorder, StatusOK]

theorem hexEscapeNonASCII_ascii (s : String) (h : ∀ c ∈ s.data, c.toNat < 128) :
    hexEscapeNonASCII s = s := by
  have key : ∀ l : List Char, (∀ c ∈ l, c.toNat < 128) →
      (l.flatMap fun c =>
        if c.toNat < 128 then [c]
        else (short.utf8EncodeChar c).flatMap fun b =>
          ['%', short.hex.hextable.getD (b / 16) '0', short.hex.hextable.getD (b % 16) '0'])
        = l := by
    intro l
    induction l with
    | nil => intro _; rfl
    | cons c cs ih =>
      intro hl
      have hc : c.toNat < 128 := hl c (List.mem_cons_self _ _)
      rw [List.flatMap_cons, ih (fun d hd => hl d (List.mem_cons_of_mem _ hd)), if_pos hc]
      rfl
  simp only [hexEscapeNonASCII]
  rw [key s.data h]

theorem redirectTarget_absolute (r : Request) (url : String)
    (h : urlpkg.isRelative url = false) : redirectTarget r url = url := by
  simp [redirectTarget, h]

theorem Redirect_NewRecorder (r : Request) (url : String) (code : Nat) :
    (Redirect NewRecorder r url code).Code = code
    ∧ (Redirect NewRecorder r url code).HeaderMap.Get "Location"
        = hexEscapeNonASCII (redirectTarget r url) := by
  have hne : ("Location" == "Content-Type") = false := by decide
  by_cases hget : r.Method = "GET"
  · simp [Redirect, NewRecorder, ResponseWriter.Write, ResponseWriter.WriteHeader, Header.Set,
      Header.Get, List.lookup_cons, hget, hne]
  · by_cases hhead : r.Method = "HEAD"
    · simp [Redirect, NewRecorder, ResponseWriter.Write, ResponseWriter.WriteHeader, Header.Set,
        Header.Get, List.lookup_cons, hhead, hne]
    · simp [Redirect, NewRecorder, ResponseWriter.Write, ResponseWriter.WriteHeader, Header.Set,
        Header.Get, List.lookup_cons, hget, hhead]

end http

namespace yaus

theorem Server.shorten_decode_error {σ : Type} (s : Server σ) (js : json.Codec)
    (world : World σ) (r : http.Request) (err : GoError)
    (hdec : js.Decode r.Body = .error err) :
    s.shorten js world http.NewRecorder r
      = ({ world with trace := world.trace ++ [.logError "shorten decode" err] },
          http.Error http.NewRecorder (http.StatusText http.StatusInternalServerError)
            http.StatusInternalServerError) := by
  simp only [Server.shorten, hdec]

theorem Server.shorten_put_error {σ : Type} (s : Server σ) (js : json.Codec)
    (world : World σ) (r : http.Request) (u : String) (err : GoError)
    (hdec : js.Decode r.Body = .ok { URL := u })
    (hput : (s.cache.Put world.store (s.shortener.Hash u) u).1 = some err) :
    s.shorten js world http.NewRecorder r
      = ({ store := (s.cache.Put world.store (s.shortener.Hash u) u).2,
           trace := world.trace ++
             [.cachePut (s.shortener.Hash u) u, .logError "cache put" err] },
          http.Error http.NewRecorder (http.StatusText http.StatusInternalServerError)
            http.StatusInternalServerError) := by
  simp only [Server.shorten, hdec]
  rcases hp : s.cache.Put world.store (s.shortener.Hash u) u with ⟨e, st⟩
  rw [hp] at hput
  simp only at hput
  subst hput
  rfl

theorem Server.shorten_ok {σ : Type} (s : Server σ) (js : json.Codec)
    (world : World σ) (r : http.Request) (u : String)
    (hdec : js.Decode r.Body = .ok { URL := u })
    (hput : (s.cache.Put world.store (s.shortener.Hash u) u).1 = none) :
    s.shorten js world http.NewRecorder r
      = ({ store := (s.cache.Put world.store (s.shortener.Hash u) u).2,
           trace := world.trace ++ [.cachePut (s.shortener.Hash u) u] },
          { HeaderMap := [], Code := 200, wroteHeader := true,
            Body := js.Marshal { Hash := s.shortener.Hash u }, writeErr := none }) := by
  simp only [Server.shorten, hdec]
  rcases hp : s.cache.Put world.store (s.shortener.Hash u) u with ⟨e, st⟩
  rw [hp] at hput
  simp only at hput
  subst hput
  simp only [json.Codec.Encode, http.Write_NewRecorder]

theorem Server.shorten_failure_writer {σ : Type} (s : Server σ) (js : json.Codec)
    (world : World σ) (r : http.Request)
    (hfail : (∃ err, js.Decode r.Body = .error err)
      ∨ (∃ u err, js.Decode r.Body = .ok { URL := u }
          ∧ (s.cache.Put world.store (s.shortener.Hash u) u).1 = some err)) :
    (s.shorten js world http.NewRecorder r).2
      = { HeaderMap := [("X-Content-Type-Options", "nosniff"),
                        ("Content-Type", "text/plain; charset=utf-8")],
          Code := 500, wroteHeader := true, Body := "Internal Server Error\n",
          writeErr := none } := by
  rcases hfail with ⟨err, herr⟩ | ⟨u, err, hu, hput⟩
  · rw [Server.shorten_decode_error s js world r err herr, http.Error_NewRecorder]
  · rw [Server.shorten_put_error s js world r u err hu hput, http.Error_NewRecorder]

theorem Server.redirect_error {σ : Type} (s : Server σ) (world : World σ)
    (r : http.Request) (v : String) (err : GoError)
    (hget : (s.cache.Get world.store ((r.Vars.lookup "hash").getD "")).1 = (v, some err)) :
    (s.redirect world http.NewRecorder r).2
      = http.Error http.NewRecorder (http.StatusText http.StatusInternalServerError)
          http.StatusInternalServerError := by
  simp only [Server.redirect]
  rcases hp : s.cache.Get world.store ((r.Vars.lookup "hash").getD "") with ⟨⟨v', e⟩, st⟩
  rw [hp] at hget
  simp only [Prod.mk.injEq] at hget
  obtain ⟨-, he⟩ := hget
  subst he
  rfl

theorem Server.redirect_ok {σ : Type} (s : Server σ) (world : World σ)
    (r : http.Request) (u : String)
    (hget : (s.cache.Get world.store ((r.Vars.lookup "hash").getD "")).1 = (u, none)) :
    (s.redirect world http.NewRecorder r).2
      = http.Redirect http.NewRecorder r u http.StatusTemporaryRedirect := by
  simp only [Server.redirect]
  rcases hp : s.cache.Get world.store ((r.Vars.lookup "hash").getD "") with ⟨⟨v', e⟩, st⟩
  rw [hp] at hget
  simp only [Prod.mk.injEq] at hget
  obtain ⟨hv, he⟩ := hget
  subst he
  subst hv
  rfl

end yaus

/-! ## Properties of the server -/

namespace yaus

theorem foldl_options {σ : Type} (l : List Setting) (s : Server σ) :
    ((l.map Setting.toOption).foldl (fun srv opt => opt srv) s).server.Addr
        = (lastAddress l).getD s.server.Addr
    ∧ ((l.map Setting.toOption).foldl (fun srv opt => opt srv) s).server.WriteTimeout
        = (lastWriteTimeout l).getD s.server.WriteTimeout
    ∧ ((l.map Setting.toOption).foldl (fun srv opt => opt srv) s).server.ReadTimeout
        = (lastReadTimeout l).getD s.server.ReadTimeout
    ∧ ((l.map Setting.toOption).foldl (fun srv opt => opt srv) s).server.IdleTimeout
        = (lastIdleTimeout l).getD s.server.IdleTimeout
    ∧ ((l.map Setting.toOption).foldl (fun srv opt => opt srv) s).server.Handler
        = s.server.Handler
    ∧ ((l.map Setting.toOption).foldl (fun srv opt => opt srv) s).shortener = s.shortener
    ∧ ((l.map Setting.toOption).foldl (fun srv opt => opt srv) s).cache = s.cache
    ∧ ((l.map Setting.toOption).foldl (fun srv opt => opt srv) s).logger = s.logger := by
  induction l using List.reverseRecOn with
  | nil => simp [lastAddress, lastWriteTimeout, lastReadTimeout, lastIdleTimeout]
  | append_singleton l c ih =>
    obtain ⟨h1, h2, h3, h4, h5, h6, h7, h8⟩ := ih
    simp only [lastAddress, lastWriteTimeout, lastReadTimeout, lastIdleTimeout] at h1 h2 h3 h4
    cases c <;>
      simp [lastAddress, lastWriteTimeout, lastReadTimeout, lastIdleTimeout, Setting.toOption,
        Address, WriteTimeout, ReadTimeout, IdleTimeout, List.findSome?_cons,
        h1, h2, h3, h4, h5, h6, h7, h8]

/-- C1: for every hasher, backend and request whose body decodes to the url
`u`, if `Put(Hash(u), u)` returns no error then the shorten handler responds
with status 200 and the JSON encoding of the response whose hash is `Hash(u)`,
and its one call on the backend is `Put` with the key `Hash(u)` and the value
`u`. -/
theorem shorten_success {σ : Type} (s : Server σ) (js : json.Codec) (world : World σ)
    (r : http.Request) (u : String)
    (hdec : js.Decode r.Body = .ok { URL := u })
    (hput : (s.cache.Put world.store (s.shortener.Hash u) u).1 = none) :
    (s.shorten js world http.NewRecorder r).2.Code = http.StatusOK
    ∧ (s.shorten js world http.NewRecorder r).2.Body
        = js.Marshal { Hash := s.shortener.Hash u }
    ∧ (s.shorten js world http.NewRecorder r).1.trace
        = world.trace ++ [.cachePut (s.shortener.Hash u) u]
    ∧ (s.shorten js world http.NewRecorder r).1.store
        = (s.cache.Put world.store (s.shortener.Hash u) u).2 := by
  rw [Server.shorten_ok s js world r u hdec hput]
  exact ⟨rfl, rfl, rfl, rfl⟩

/-- Witness of C1: the request of `TestShorten`, whose hasher gives
`test-hash`, is answered with that hash and status 200. -/
theorem shorten_success_witness :
    json.testCodec.Decode shortenRequest.Body = .ok { URL := "http://www.example.com" }
    ∧ (testServer.cache.Put () "test-hash" "http://www.example.com").1 = none
    ∧ (testServer.shorten json.testCodec ⟨(), []⟩ http.NewRecorder shortenRequest).2.Code = 200
    ∧ (testServer.shorten json.testCodec ⟨(), []⟩ http.NewRecorder shortenRequest).2.Body
        = "\x7b\"hash\":\"test-hash\"\x7d\n"
    ∧ (testServer.shorten json.testCodec ⟨(), []⟩ http.NewRecorder shortenRequest).1.trace
        = [.cachePut "test-hash" "http://www.example.com"] :=
  have h := shorten_success testServer json.testCodec ⟨(), []⟩ shortenRequest
    "http://www.example.com" (by decide) (by decide)
  ⟨by decide, by decide, h.1, h.2.1.trans (by decide), h.2.2.1.trans (by decide)⟩

set_option maxRecDepth 100000 in
/-- Counterexample to C2: the server of the command shortens the target
`example.com`, which has no scheme, and stores it under its hash; `Get` of that
hash returns `example.com` without error, yet the `Location` header of the
redirect is `/example.com`, the target made absolute against the request path. -/
theorem redirect_relative_target_is_rewritten :
    (badgerServer.cache.Get relativeWorld.store "5ababd603b22780302dd8d83498e5172").1
        = ("example.com", none)
    ∧ (badgerServer.redirect relativeWorld http.NewRecorder relativeLookup).2.Code = 307
    ∧ (badgerServer.redirect relativeWorld http.NewRecorder relativeLookup).2.HeaderMap.Get
        "Location" = "/example.com"
    ∧ ¬ ((badgerServer.redirect relativeWorld http.NewRecorder relativeLookup).2.Code = 307
          ∧ (badgerServer.redirect relativeWorld http.NewRecorder relativeLookup).2.HeaderMap.Get
              "Location" = "example.com") := by
  decide

/-- C2, amended: for every backend and every hash path parameter `h`, if
`Get(h)` returns the URL `u` without error then the redirect handler responds
with status 307 and a `Location` header that is the target `http.Redirect`
makes of `u`; the header is equal to `u` when `u` is made of ASCII characters
and is not a relative reference, that is when `url.Parse` refuses `u` or gives
it a scheme or a host. -/
theorem redirect_found {σ : Type} (s : Server σ) (world : World σ) (r : http.Request)
    (h u : String)
    (hh : (r.Vars.lookup "hash").getD "" = h)
    (hget : (s.cache.Get world.store h).1 = (u, none)) :
    (s.redirect world http.NewRecorder r).2.Code = http.StatusTemporaryRedirect
    ∧ (s.redirect world http.NewRecorder r).2.Code = 307
    ∧ (s.redirect world http.NewRecorder r).2.HeaderMap.Get "Location"
        = http.hexEscapeNonASCII (http.redirectTarget r u)
    ∧ (urlpkg.isRelative u = false → (∀ c ∈ u.data, c.toNat < 128) →
        (s.redirect world http.NewRecorder r).2.HeaderMap.Get "Location" = u) := by
  subst hh
  rw [Server.redirect_ok s world r u hget]
  refine ⟨(http.Redirect_NewRecorder r u _).1, (http.Redirect_NewRecorder r u _).1,
    (http.Redirect_NewRecorder r u _).2, ?_⟩
  intro habs hascii
  rw [(http.Redirect_NewRecorder r u _).2, http.redirectTarget_absolute r u habs,
    http.hexEscapeNonASCII_ascii u hascii]

/-- Witness of C2, amended: the request of `TestRedirect`, whose stored URL has
the scheme `http` and is made of ASCII characters. -/
theorem redirect_found_witness :
    (MockBackend.Get () "test-hash").1 = ("http://www.example.com", none)
    ∧ urlpkg.isRelative "http://www.example.com" = false
    ∧ (testServer.redirect ⟨(), []⟩ http.NewRecorder redirectRequest).2.Code = 307
    ∧ (testServer.redirect ⟨(), []⟩ http.NewRecorder redirectRequest).2.HeaderMap.Get "Location"
        = "http://www.example.com" :=
  have h := redirect_found testServer ⟨(), []⟩ redirectRequest "test-hash"
    "http://www.example.com" (by decide) (by decide)
  ⟨by decide, by decide, h.2.1, h.2.2.2 (by decide) (by decide)⟩

/-- Counterexample to C3: on a store just created the key `unknown-hash` is
absent and `Get` fails with `ErrKeyNotFound`, yet the redirect handler answers
500, not 404, the status it also gives when the storage itself fails. -/
theorem redirect_unknown_hash_is_500 :
    (freshBackend.Get "unknown-hash").1 = ("", some GoError.ErrKeyNotFound)
    ∧ (badgerServer.redirect ⟨freshBackend, []⟩ http.NewRecorder unknownRequest).2.Code = 500
    ∧ (brokenServer.redirect ⟨(), []⟩ http.NewRecorder unknownRequest).2.Code = 500
    ∧ ¬ ((badgerServer.redirect ⟨freshBackend, []⟩ http.NewRecorder unknownRequest).2.Code
            = http.StatusNotFound
          ∧ (badgerServer.redirect ⟨freshBackend, []⟩ http.NewRecorder unknownRequest).2.Code
            ≠ 500
          ∧ (badgerServer.redirect ⟨freshBackend, []⟩ http.NewRecorder unknownRequest).2.Code
            ≠ (brokenServer.redirect ⟨(), []⟩ http.NewRecorder unknownRequest).2.Code) := by
  decide

/-- C3, amended: for every backend and every hash `h`, if `Get(h)` returns an
error, whether the key is absent or the storage failed, the redirect handler
responds with status 500 and the plain text of that status, and sets no
`Location` header. -/
theorem redirect_failure_is_500 {σ : Type} (s : Server σ) (world : World σ)
    (r : http.Request) (h v : String) (err : GoError)
    (hh : (r.Vars.lookup "hash").getD "" = h)
    (hget : (s.cache.Get world.store h).1 = (v, some err)) :
    (s.redirect world http.NewRecorder r).2.Code = http.StatusInternalServerError
    ∧ (s.redirect world http.NewRecorder r).2.Code = 500
    ∧ (s.redirect world http.NewRecorder r).2.Body = "Internal Server Error\n"
    ∧ (s.redirect world http.NewRecorder r).2.HeaderMap.Get "Location" = "" := by
  subst hh
  rw [Server.redirect_error s world r v err hget, http.Error_NewRecorder]
  decide

/-- Witness of C3, amended: the absent key on a store just created. -/
theorem redirect_failure_is_500_witness :
    (badgerServer.cache.Get freshBackend "unknown-hash").1 = ("", some GoError.ErrKeyNotFound)
    ∧ (badgerServer.redirect ⟨freshBackend, []⟩ http.NewRecorder unknownRequest).2.Code = 500 :=
  have h := redirect_failure_is_500 badgerServer ⟨freshBackend, []⟩ unknownRequest
    "unknown-hash" "" .ErrKeyNotFound (by decide) (by decide)
  ⟨by decide, h.2.1⟩

/-- C4: for every request to the shorten handler, if the body fails to decode
or `Put` returns an error, the response has status 500, not 200, and its body
is the plain text of that status, in which nothing of the hash is written;
and when decoding fails the store is untouched and the one event is the log
entry, so `Put` is not called. -/
theorem shorten_failure_is_500 {σ : Type} (s : Server σ) (js : json.Codec) (world : World σ)
    (r : http.Request)
    (hfail : (∃ err, js.Decode r.Body = .error err)
      ∨ (∃ u err, js.Decode r.Body = .ok { URL := u }
          ∧ (s.cache.Put world.store (s.shortener.Hash u) u).1 = some err)) :
    (s.shorten js world http.NewRecorder r).2.Code = http.StatusInternalServerError
    ∧ (s.shorten js world http.NewRecorder r).2.Code ≠ http.StatusOK
    ∧ (s.shorten js world http.NewRecorder r).2.Body = "Internal Server Error\n"
    ∧ (s.shorten js world http.NewRecorder r).2.HeaderMap.Get "Content-Type"
        = "text/plain; charset=utf-8"
    ∧ (∀ err, js.Decode r.Body = .error err →
        (s.shorten js world http.NewRecorder r).1.store = world.store
        ∧ (s.shorten js world http.NewRecorder r).1.trace
            = world.trace ++ [.logError "shorten decode" err]) := by
  have hdec : ∀ err, js.Decode r.Body = .error err →
      (s.shorten js world http.NewRecorder r).1.store = world.store
      ∧ (s.shorten js world http.NewRecorder r).1.trace
          = world.trace ++ [.logError "shorten decode" err] := by
    intro err herr
    rw [Server.shorten_decode_error s js world r err herr]
    exact ⟨rfl, rfl⟩
  refine ⟨?_, ?_, ?_, ?_, hdec⟩ <;>
    rw [Server.shorten_failure_writer s js world r hfail] <;> decide

/-- Witness of C4: a body that is not JSON. -/
theorem shorten_failure_is_500_witness :
    (∃ err, json.testCodec.Decode malformedRequest.Body = .error err)
    ∧ (testServer.shorten json.testCodec ⟨(), []⟩ http.NewRecorder malformedRequest).2.Code = 500
    ∧ (testServer.shorten json.testCodec ⟨(), []⟩ http.NewRecorder malformedRequest).2.Body
        = "Internal Server Error\n" :=
  have h := shorten_failure_is_500 testServer json.testCodec ⟨(), []⟩ malformedRequest
    (Or.inl ⟨.New "invalid character", by decide⟩)
  ⟨⟨.New "invalid character", by decide⟩, h.1, h.2.2.1⟩

/-- Counterexample to C5: the body `not json` does not decode, and the shorten
handler answers 500, which is not in the 4xx class. -/
theorem shorten_malformed_is_not_4xx :
    json.testCodec.Decode malformedRequest.Body = .error (.New "invalid character")
    ∧ (badgerServer.shorten json.testCodec ⟨freshBackend, []⟩ http.NewRecorder
        malformedRequest).2.Code = 500
    ∧ ¬ (400 ≤ (badgerServer.shorten json.testCodec ⟨freshBackend, []⟩ http.NewRecorder
          malformedRequest).2.Code
        ∧ (badgerServer.shorten json.testCodec ⟨freshBackend, []⟩ http.NewRecorder
          malformedRequest).2.Code < 500) := by
  decide

/-- C5, amended: for every request to the shorten handler whose body is not
decodable as JSON, the response status is 500, in the 5xx class and not in the
4xx class. -/
theorem shorten_malformed_is_500 {σ : Type} (s : Server σ) (js : json.Codec)
    (world : World σ) (r : http.Request) (err : GoError)
    (hdec : js.Decode r.Body = .error err) :
    (s.shorten js world http.NewRecorder r).2.Code = 500
    ∧ (500 ≤ (s.shorten js world http.NewRecorder r).2.Code
        ∧ (s.shorten js world http.NewRecorder r).2.Code < 600)
    ∧ ¬ (400 ≤ (s.shorten js world http.NewRecorder r).2.Code
        ∧ (s.shorten js world http.NewRecorder r).2.Code < 500) := by
  rw [Server.shorten_failure_writer s js world r (Or.inl ⟨err, hdec⟩)]
  decide

/-- Witness of C5, amended: the body `not json` on the server of the command. -/
theorem shorten_malformed_is_500_witness :
    (badgerServer.shorten json.testCodec ⟨freshBackend, []⟩ http.NewRecorder
      malformedRequest).2.Code = 500 :=
  (shorten_malformed_is_500 badgerServer json.testCodec ⟨freshBackend, []⟩ malformedRequest
    (.New "invalid character") (by decide)).1

/-- C9: for every result `err` of the listen-and-serve call, the channel of
`Run` hands over exactly the one value `err` when `err` is non-nil and is not
the server-closed error, and no value when `err` is nil or is the server-closed
error; in both cases the channel ends closed, the close being the last event of
the goroutine, so at most one error is surfaced. -/
theorem run_error_channel {σ : Type} (s : Server σ) (err : Option GoError) :
    ∃ c, Chan.run Chan.make (s.Run err) = some c
      ∧ c.closed = true
      ∧ c.values = (match err with
          | some e => if errors.Is e .ErrServerClosed then [] else [e]
          | none => [])
      ∧ c.values.length ≤ 1
      ∧ (s.Run err).getLast? = some Event.close
      ∧ (s.Run (some .ErrServerClosed)).filter (fun e => e matches .send _) = []
      ∧ (s.Run none).filter (fun e => e matches .send _) = [] := by
  cases err with
  | none => exact ⟨{ values := [], closed := true }, rfl, rfl, rfl, by decide, rfl, rfl, rfl⟩
  | some e =>
    by_cases h : errors.Is e .ErrServerClosed = true
    · refine ⟨{ values := [], closed := true }, ?_, rfl, ?_, by decide, ?_, rfl, rfl⟩
      · simp [Server.Run, h, Chan.run, Chan.apply, Chan.make]
      · simp [h]
      · simp [Server.Run, h]
    · refine ⟨{ values := [e], closed := true }, ?_, rfl, ?_, Nat.le_refl 1, ?_, rfl, rfl⟩
      · simp [Server.Run, h, Chan.run, Chan.apply, Chan.make]
      · simp [h]
      · simp [Server.Run, h]

/-- C10: for every list of options built by the four constructors, each of the
four configuration fields of the server `NewServer` returns is the value of the
last option in the list that targets the field, or its default when none does
(empty address, write 15s, read 15s, idle 60s); the hasher, the backend and the
logger are the ones given and the handler is the router with the two routes;
and an option applied to a server changes its own field and nothing else. -/
theorem new_server_last_option_wins {σ : Type} (cache : storage.Backend σ)
    (shortener : short.Hasher) (logger : Logger) (l : List Setting) :
    (NewServer cache shortener logger (l.map Setting.toOption)).server.Addr
        = (lastAddress l).getD ""
    ∧ (NewServer cache shortener logger (l.map Setting.toOption)).server.WriteTimeout
        = (lastWriteTimeout l).getD 15000000000
    ∧ (NewServer cache shortener logger (l.map Setting.toOption)).server.ReadTimeout
        = (lastReadTimeout l).getD 15000000000
    ∧ (NewServer cache shortener logger (l.map Setting.toOption)).server.IdleTimeout
        = (lastIdleTimeout l).getD 60000000000
    ∧ (NewServer cache shortener logger (l.map Setting.toOption)).shortener = shortener
    ∧ (NewServer cache shortener logger (l.map Setting.toOption)).cache = cache
    ∧ (NewServer cache shortener logger (l.map Setting.toOption)).logger = logger
    ∧ (NewServer cache shortener logger (l.map Setting.toOption)).server.Handler
        = { routes := [{ path := "/\x7bhash\x7d", method := "GET", handler := .redirect },
                       { path := "/shorten", method := "POST", handler := .shorten }] }
    ∧ (∀ (c : Setting) (s : Server σ),
        (c.toOption s).shortener = s.shortener
        ∧ (c.toOption s).cache = s.cache
        ∧ (c.toOption s).logger = s.logger
        ∧ (c.toOption s).server =
            (match c with
              | .address addr => { s.server with Addr := addr }
              | .writeTimeout d => { s.server with WriteTimeout := d }
              | .readTimeout d => { s.server with ReadTimeout := d }
              | .idleTimeout d => { s.server with IdleTimeout := d })) := by
  obtain ⟨h1, h2, h3, h4, h5, h6, h7, h8⟩ := foldl_options l
    ({ server := { Addr := "", WriteTimeout := DefaultWriteTimeout,
                   ReadTimeout := DefaultReadTimeout, IdleTimeout := DefaultIdleTimeout,
                   Handler := mux.NewRouter },
       shortener := shortener, cache := cache, logger := logger } : Server σ)
  refine ⟨?_, ?_, ?_, ?_, ?_, ?_, ?_, ?_, ?_⟩
  · simpa [NewServer] using h1
  · simpa [NewServer, DefaultWriteTimeout, time.Second] using h2
  · simpa [NewServer, DefaultReadTimeout, time.Second] using h3
  · simpa [NewServer, DefaultIdleTimeout, time.Second] using h4
  · simpa [NewServer] using h6
  · simpa [NewServer] using h7
  · simpa [NewServer] using h8
  · simp only [NewServer, h5]
    decide
  · intro c s
    cases c <;> exact ⟨rfl, rfl, rfl, rfl⟩

end yaus
